import Mathlib

/-!
Shallow embedding of `generate_naca_profile.py` (the NACA 00XX airfoil mesh
generator of this repository): the thickness distribution, profile
generation, vertex-file serialization and the batch driver, together with
theorems settling the specification claims about them.

Machine reals are modelled by `ℝ`; a Python function that can raise is
modelled as returning `Except String`.
-/

namespace NacaGen

/-- Value of a most-significant-digit-first list of decimal digit characters:
each step accumulates `10 * acc + (c - '0')`, as Python `int` parsing does. -/
def digitsVal (l : List Char) : ℕ :=
  l.foldl (fun a c => 10 * a + (c.toNat - '0'.toNat)) 0

/-- Model of Python `int(s)` on ASCII strings: optional surrounding
whitespace, an optional sign, then one or more decimal digits.  (Underscore
digit separators are not modelled; they cannot occur in the two-character
substrings this program parses.)  `none` models a raised `ValueError`. -/
def pyIntParse (s : String) : Option ℤ :=
  let l := ((s.toList.dropWhile Char.isWhitespace).reverse.dropWhile
    Char.isWhitespace).reverse
  match l with
  | '+' :: rest =>
      if rest ≠ [] ∧ rest.all Char.isDigit then some (digitsVal rest) else none
  | '-' :: rest =>
      if rest ≠ [] ∧ rest.all Char.isDigit then some (-(digitsVal rest : ℤ)) else none
  | rest =>
      if rest ≠ [] ∧ rest.all Char.isDigit then some (digitsVal rest) else none

/-- `naca_00xx_thickness(x, thickness_ratio)`: the symmetric NACA 00XX
half-thickness distribution
`y = 5 t (0.2969 √x − 0.1260 x − 0.3516 x² + 0.2843 x³ − 0.1015 x⁴)`. -/
noncomputable def naca_00xx_thickness (x thickness_ratio : ℝ) : ℝ :=
  let t := thickness_ratio
  5.0 * t * (0.2969 * Real.sqrt x - 0.1260 * x - 0.3516 * x ^ 2 +
    0.2843 * x ^ 3 - 0.1015 * x ^ 4)

/-- `np.linspace a b n`: `n` evenly spaced samples from `a` to `b`, both
endpoints included (numpy returns `[a]` for `n = 1` and the empty array for
`n = 0`). -/
noncomputable def linspace (a b : ℝ) (n : ℕ) : List ℝ :=
  if n = 1 then [a]
  else (List.range n).map (fun i : ℕ => a + (b - a) * (i : ℝ) / ((n : ℝ) - 1))

/-- `generate_naca_profile(naca_code, n_points, chord_length)`: validate the
code length, parse the last two characters into the thickness percentage,
sample the chord with cosine spacing, evaluate the thickness, and assemble
the closed loop (trailing edge lower → leading edge → trailing edge upper)
with the duplicate leading-edge point dropped at the seam. -/
noncomputable def generate_naca_profile (naca_code : String) (n_points : ℕ)
    (chord_length : ℝ) : Except String (List ℝ × List ℝ) :=
  if naca_code.length ≠ 4 then
    .error ("Invalid NACA code: " ++ naca_code ++ ". Must be 4 digits.")
  else
    match pyIntParse (naca_code.drop 2) with
    | none => .error ("invalid literal for int() with base 10: " ++ naca_code.drop 2)
    | some thickness_percent =>
      let thickness_ratio : ℝ := (thickness_percent : ℝ) / 100.0
      let beta := linspace 0 Real.pi n_points
      let x := beta.map (fun b => chord_length * 0.5 * (1.0 - Real.cos b))
      let y_thickness :=
        x.map (fun xi => naca_00xx_thickness (xi / chord_length) thickness_ratio * chord_length)
      let x_upper := x
      let y_upper := y_thickness
      let x_lower := x.reverse
      let y_lower := y_thickness.reverse.map (fun y => -y)
      let x_coords := x_lower.dropLast ++ x_upper
      let y_coords := y_lower.dropLast ++ y_upper
      .ok (x_coords, y_coords)

/-- Decimal digit characters of `n`, most significant first, by repeated
division; `fuel` is structural and any `fuel ≥ n` is enough. -/
def decDigitsAux : ℕ → ℕ → List Char
  | 0, _ => []
  | fuel + 1, n =>
      if n = 0 then []
      else decDigitsAux fuel (n / 10) ++ [Char.ofNat ('0'.toNat + n % 10)]

/-- Decimal rendering of a natural number, modelling Python default integer
formatting (`f"{n}"`). -/
def decRepr (n : ℕ) : String :=
  if n = 0 then "0" else String.mk (decDigitsAux (n + 1) n)

/-- Round to the nearest integer with ties to even, the rounding Python
performs when formatting a value with `"%.10f"`. -/
def roundHalfEven {α : Type} [LinearOrderedField α] [FloorRing α] (x : α) : ℤ :=
  if x - ⌊x⌋ < 1 / 2 then ⌊x⌋
  else if 1 / 2 < x - ⌊x⌋ then ⌊x⌋ + 1
  else if ⌊x⌋ % 2 = 0 then ⌊x⌋ else ⌊x⌋ + 1

/-- Fixed-point rendering of the scaled integer `n`: the decimal string for
`n / 10^10` with exactly ten digits after the decimal point. -/
def fixedOfInt (n : ℤ) : String :=
  let m := n.natAbs
  let ip := m / 10 ^ 10
  let fp := m % 10 ^ 10
  let fs := decRepr fp
  let pad := String.mk (List.replicate (10 - fs.length) '0')
  (if n < 0 then "-" else "") ++ decRepr ip ++ "." ++ pad ++ fs

/-- `"%.10f"` formatting over an ordered field with floor: scale by `10^10`,
round (ties to even, as Python does) and render in fixed-point form. -/
def formatFixed10 {α : Type} [LinearOrderedField α] [FloorRing α] (x : α) : String :=
  fixedOfInt (roundHalfEven (x * 10 ^ 10))

/-- `write_vertex_file(x_coords, y_coords, filename, center_offset)`,
modelled as the list of lines written to the file: the vertex count on the
first line, then one `"x\ty"` line per vertex, the offset having been added
to every coordinate first.  `fmt` is the scalar formatter (`"%.10f"` in the
source). -/
def write_vertex_file_lines {α : Type} [Add α] (fmt : α → String)
    (x_coords y_coords : List α) (center_offset : α × α) : List String :=
  let n_vertices := x_coords.length
  let xs := x_coords.map (fun x => x + center_offset.1)
  let ys := y_coords.map (fun y => y + center_offset.2)
  decRepr n_vertices :: (xs.zip ys).map (fun p => fmt p.1 ++ "\t" ++ fmt p.2)

/-- The fixed profile table of `generate_all_gupta2022_profiles`. -/
def gupta2022_profiles : List (String × String) :=
  [("0006", "anguilliform"), ("0008", "anguilliform"),
   ("0012", "carangiform"), ("0018", "carangiform"), ("0024", "carangiform")]

/-- `generate_all_gupta2022_profiles()`: for each fixed profile, generate the
loop with `n_points = 256`, `chord_length = 1.0` and write the vertex file
under the label directory with offset `(0.5, 0.0)`.  The result lists, per
profile, the label, the output path and the file lines; a raised
`ValueError` aborts the whole run. -/
noncomputable def generate_all_gupta2022_profiles :
    Except String (List (String × String × List String)) :=
  gupta2022_profiles.foldr
    (fun p acc => do
      let files ← acc
      let xy ← generate_naca_profile p.1 256 1.0
      pure ((p.2, "../generated_meshes/" ++ p.2 ++ "/naca" ++ p.1 ++ ".vertex",
        write_vertex_file_lines formatFixed10 xy.1 xy.2 (0.5, 0.0)) :: files))
    (pure [])

/-- Parse one line as an unsigned decimal count (the reader side of the
vertex-file round-trip property). -/
def parseCountLine (s : String) : Option ℕ :=
  if s.toList ≠ [] ∧ s.toList.all Char.isDigit then some (digitsVal s.toList)
  else none

/-- Read back a vertex file given as its list of lines: the first line is
parsed as the vertex count, the remaining lines are the coordinate lines. -/
def readVertexFile (lines : List String) : Option (ℕ × List String) :=
  match lines with
  | [] => none
  | first :: rest => (parseCountLine first).map (fun n => (n, rest))

/-- The `AirfoilCode` invariant, following the specification words: length
exactly 4, all characters digits, and the thickness percentage encoded by
the last two characters strictly positive.  (Spec-side definition, to be
compared with the validation the source actually performs.) -/
def specAirfoilCodeInvariant (code : String) : Prop :=
  code.length = 4 ∧ code.toList.all Char.isDigit = true ∧
    0 < digitsVal (code.toList.drop 2)

instance (code : String) : Decidable (specAirfoilCodeInvariant code) := by
  unfold specAirfoilCodeInvariant; infer_instance

/-- `true` when the call returned normally rather than raising. -/
def exceptOk {ε α : Type} : Except ε α → Bool
  | .ok _ => true
  | .error _ => false

@[simp] lemma exceptOk_ok {ε α : Type} (a : α) : exceptOk (Except.ok a : Except ε α) = true := rfl

@[simp] lemma exceptOk_error {ε α : Type} (e : ε) :
    exceptOk (Except.error e : Except ε α) = false := rfl

/-- The thickness distribution vanishes at the leading edge. -/
lemma naca_thickness_at_zero (t : ℝ) : naca_00xx_thickness 0 t = 0 := by
  simp [naca_00xx_thickness]

/-- Closed-form value of the thickness distribution at the trailing edge. -/
lemma naca_thickness_at_one (t : ℝ) : naca_00xx_thickness 1 t = 5 * t * 0.0021 := by
  simp only [naca_00xx_thickness, Real.sqrt_one]
  ring

/-- C9: for every thickness ratio `t`, `naca_00xx_thickness 0 t = 0`
exactly — every term of the five-term expression vanishes at `x = 0`, so the
leading edge is a single point on the chord line. -/
theorem C9_thickness_zero_at_leading_edge (t : ℝ) : naca_00xx_thickness 0 t = 0 :=
  naca_thickness_at_zero t

/-- C8: for every thickness ratio `t > 0`, the thickness at the trailing edge
`x = 1` evaluates to `5·t·0.0021` and is strictly positive, so the emitted
airfoil has a small finite trailing-edge thickness rather than closing to
zero. -/
theorem C8_trailing_edge_thickness_positive (t : ℝ) (ht : 0 < t) :
    naca_00xx_thickness 1 t = 5 * t * 0.0021 ∧ 0 < naca_00xx_thickness 1 t := by
  refine ⟨naca_thickness_at_one t, ?_⟩
  rw [naca_thickness_at_one]
  nlinarith [ht]

/-- Witness for C8 at the concrete thickness ratio `t = 0.12`. -/
theorem C8_trailing_edge_thickness_positive_witness :
    (0:ℝ) < 0.12 ∧ (naca_00xx_thickness 1 0.12 = 5 * 0.12 * 0.0021 ∧
      0 < naca_00xx_thickness 1 0.12) :=
  ⟨by norm_num, C8_trailing_edge_thickness_positive 0.12 (by norm_num)⟩

/-- C1 counterexample: the code `"0000"` violates the `AirfoilCode`
invariant (it implies thickness percentage 0), yet
`generate_naca_profile "0000" 4 1` succeeds — so the function does not fail
exactly on the invariant violations. -/
theorem C1_counterexample :
    ¬ specAirfoilCodeInvariant "0000" ∧
      exceptOk (generate_naca_profile "0000" 4 1) = true := by
  exact ⟨by decide, rfl⟩

/-- C1 amended: `generate_naca_profile` fails exactly when the code length
is not 4 or the last two characters do not parse as a Python integer (codes
with non-digit leading characters or zero thickness are accepted); the
function performs no file output at all. -/
theorem C1_amended_validation_iff (code : String) (n : ℕ) (c : ℝ) :
    exceptOk (generate_naca_profile code n c) = false ↔
      (code.length ≠ 4 ∨ pyIntParse (code.drop 2) = none) := by
  by_cases h4 : code.length = 4
  · cases hp : pyIntParse (code.drop 2) with
    | none => simp [generate_naca_profile, h4, hp]
    | some k => simp [generate_naca_profile, h4, hp]
  · simp [generate_naca_profile, h4]

/-- C2 counterexample: `n_points = 1 < 2` with a valid code and unit chord
does not raise — `generate_naca_profile "0012" 1 1` succeeds, so the claimed
`InvalidParameterError` for `pointCount < 2` does not exist in the code. -/
theorem C2_counterexample :
    exceptOk (generate_naca_profile "0012" 1 1) = true := rfl

/-- C2 amended: `generate_naca_profile` performs no validation of
`n_points` or `chord_length`: for every code of length 4 whose last two
characters parse as an integer, every `n_points` (including `0` and `1`)
and every `chord_length` (including `0` and negative values), the call
succeeds without error. -/
theorem C2_amended_no_parameter_validation (code : String) (n : ℕ) (c : ℝ)
    (h4 : code.length = 4) (hp : (pyIntParse (code.drop 2)).isSome = true) :
    exceptOk (generate_naca_profile code n c) = true := by
  cases hk : pyIntParse (code.drop 2) with
  | none => rw [hk] at hp; simp at hp
  | some k => simp [generate_naca_profile, h4, hk]

/-- Witness for C2 amended at `code = "0012"`, `n_points = 1`,
`chord_length = 0`. -/
theorem C2_amended_no_parameter_validation_witness :
    ("0012".length = 4 ∧ (pyIntParse ("0012".drop 2)).isSome = true) ∧
      exceptOk (generate_naca_profile "0012" 1 0) = true :=
  ⟨⟨by decide, by decide⟩,
    C2_amended_no_parameter_validation "0012" 1 0 (by decide) (by decide)⟩

/-- The cosine-spaced chordwise samples (`x` in the source). -/
noncomputable def chordSamples (n : ℕ) (c : ℝ) : List ℝ :=
  (linspace 0 Real.pi n).map (fun b => c * 0.5 * (1.0 - Real.cos b))

/-- The scaled half-thickness samples (`y_thickness` in the source). -/
noncomputable def thickSamples (n : ℕ) (c t : ℝ) : List ℝ :=
  (chordSamples n c).map (fun xi => naca_00xx_thickness (xi / c) t * c)

/-- On a length-4 code with parseable suffix, `generate_naca_profile`
returns the assembled loop explicitly. -/
lemma generate_eq_ok (code : String) (n : ℕ) (c : ℝ) (k : ℤ)
    (h4 : code.length = 4) (hp : pyIntParse (code.drop 2) = some k) :
    generate_naca_profile code n c =
      .ok ((chordSamples n c).reverse.dropLast ++ chordSamples n c,
        ((thickSamples n c ((k : ℝ) / 100.0)).reverse.map (fun y => -y)).dropLast ++
          thickSamples n c ((k : ℝ) / 100.0)) := by
  simp [generate_naca_profile, h4, hp, chordSamples, thickSamples]

@[simp] lemma linspace_length (a b : ℝ) (n : ℕ) : (linspace a b n).length = n := by
  unfold linspace
  by_cases h : n = 1
  · simp [h]
  · rw [if_neg h, List.length_map, List.length_range]

@[simp] lemma chordSamples_length (n : ℕ) (c : ℝ) : (chordSamples n c).length = n := by
  simp [chordSamples]

@[simp] lemma thickSamples_length (n : ℕ) (c t : ℝ) : (thickSamples n c t).length = n := by
  simp [thickSamples]

/-- C3: for every valid code, `pointCount ≥ 2` and `chordLength > 0`, the
generated vertex loop has exactly `2·pointCount − 1` points — the duplicate
leading-edge point is removed at the seam between the surfaces. -/
theorem C3_loop_length (code : String) (n : ℕ) (c : ℝ)
    (h4 : code.length = 4) (hp : (pyIntParse (code.drop 2)).isSome = true)
    (hn : 2 ≤ n) (hc : 0 < c) :
    ∃ xs ys, generate_naca_profile code n c = .ok (xs, ys) ∧
      xs.length = 2 * n - 1 ∧ ys.length = 2 * n - 1 := by
  obtain ⟨k, hk⟩ := Option.isSome_iff_exists.mp hp
  refine ⟨_, _, generate_eq_ok code n c k h4 hk, ?_, ?_⟩ <;>
    simp [List.length_dropLast] <;> omega

/-- Witness for C3 at `code = "0012"`, `pointCount = 4`, `chordLength = 1`. -/
theorem C3_loop_length_witness :
    ("0012".length = 4 ∧ (pyIntParse ("0012".drop 2)).isSome = true ∧
        2 ≤ 4 ∧ (0:ℝ) < 1) ∧
      ∃ xs ys, generate_naca_profile "0012" 4 1 = .ok (xs, ys) ∧
        xs.length = 2 * 4 - 1 ∧ ys.length = 2 * 4 - 1 :=
  ⟨⟨by decide, by decide, by decide, by norm_num⟩,
    C3_loop_length "0012" 4 1 (by decide) (by decide) (by decide) (by norm_num)⟩

/-- C10: the output depends only on the last two characters of a
4-character code, `pointCount` and `chordLength`: for any two length-4 codes
agreeing on the last two characters — including codes whose first two
characters are not digits — the results are identical, because only the
characters at positions 2–3 are ever parsed. -/
theorem C10_depends_only_on_suffix (c1 c2 : String) (n : ℕ) (c : ℝ)
    (h1 : c1.length = 4) (h2 : c2.length = 4) (hs : c1.drop 2 = c2.drop 2) :
    generate_naca_profile c1 n c = generate_naca_profile c2 n c := by
  simp [generate_naca_profile, h1, h2, hs]

/-- Witness for C10 at the codes `"ab12"` (non-digit prefix) and `"0012"`. -/
theorem C10_depends_only_on_suffix_witness :
    ("ab12".length = 4 ∧ "0012".length = 4 ∧ "ab12".drop 2 = "0012".drop 2) ∧
      generate_naca_profile "ab12" 4 1 = generate_naca_profile "0012" 4 1 :=
  ⟨⟨by decide, by decide, by decide⟩,
    C10_depends_only_on_suffix "ab12" "0012" 4 1 (by decide) (by decide) (by decide)⟩

/-- Dropping the last element of a reversed list is reversing the tail. -/
lemma reverse_dropLast {α : Type} (l : List α) : l.reverse.dropLast = l.tail.reverse := by
  cases l with
  | nil => rfl
  | cons a t => simp [List.reverse_cons, List.dropLast_concat]

/-- The assembled x-loop reads the same in both directions. -/
lemma loop_palindrome {α : Type} (x : List α) :
    (x.reverse.dropLast ++ x).reverse = x.reverse.dropLast ++ x := by
  rw [reverse_dropLast]
  cases x with
  | nil => rfl
  | cons a t =>
    simp [List.reverse_append, List.reverse_cons, List.append_assoc]

/-- The assembled y-loop reverses to its pointwise negation, provided the
shared seam value (the leading-edge thickness) is `0`. -/
lemma loop_antipalindrome (y : List ℝ) (h0 : y.head? = some 0 ∨ y = []) :
    ((y.reverse.map (fun a => -a)).dropLast ++ y).reverse =
      ((y.reverse.map (fun a => -a)).dropLast ++ y).map (fun a => -a) := by
  rcases h0 with h0 | rfl
  · cases y with
    | nil => simp at h0
    | cons y0 t =>
      have hy0 : y0 = 0 := by simpa using h0
      subst hy0
      have key : (((0 : ℝ) :: t).reverse.map (fun a => -a)).dropLast =
          t.reverse.map (fun a => -a) := by
        rw [List.reverse_cons, List.map_append]
        simp [List.dropLast_concat]
      rw [key]
      simp [List.reverse_append, List.reverse_cons, List.map_append, List.map_map,
        Function.comp, List.append_assoc, ← List.map_reverse]
  · simp

/-- First sample of `linspace` for at least two samples. -/
lemma linspace_head (a b : ℝ) (n : ℕ) (hn : 2 ≤ n) : (linspace a b n).head? = some a := by
  obtain ⟨m, rfl⟩ : ∃ m, n = m + 2 := ⟨n - 2, by omega⟩
  rw [linspace, if_neg (by omega)]
  rw [show m + 2 = (m + 1) + 1 by omega, List.range_succ_eq_map]
  simp

/-- The first chordwise sample is the leading edge `x = 0`. -/
lemma chordSamples_head (n : ℕ) (c : ℝ) (hn : 2 ≤ n) :
    (chordSamples n c).head? = some 0 := by
  rw [chordSamples, List.head?_map, linspace_head 0 Real.pi n hn]
  norm_num

/-- The thickness at the first chordwise sample is `0`. -/
lemma thickSamples_head (n : ℕ) (c t : ℝ) (hn : 2 ≤ n) :
    (thickSamples n c t).head? = some 0 := by
  rw [thickSamples, List.head?_map, chordSamples_head n c hn]
  simp [naca_00xx_thickness]

/-- C7: for every valid input, the loop is symmetric about `y = 0`: the
point at the mirrored traversal position `2·pointCount − 2 − i` has the same
`x` and the negated `y` of the point at position `i`. -/
theorem C7_loop_symmetric (code : String) (n : ℕ) (c : ℝ)
    (h4 : code.length = 4) (hp : (pyIntParse (code.drop 2)).isSome = true)
    (hn : 2 ≤ n) (hc : 0 < c) :
    ∃ xs ys, generate_naca_profile code n c = .ok (xs, ys) ∧
      ∀ i, i < 2 * n - 1 →
        xs[2 * n - 2 - i]? = xs[i]? ∧
        ys[2 * n - 2 - i]? = (ys[i]?).map (fun y : ℝ => -y) := by
  obtain ⟨k, hk⟩ := Option.isSome_iff_exists.mp hp
  refine ⟨_, _, generate_eq_ok code n c k h4 hk, ?_⟩
  intro i hi
  have hLlen : ((chordSamples n c).reverse.dropLast ++ chordSamples n c).length =
      2 * n - 1 := by
    simp [List.length_dropLast]; omega
  have hMlen : (((thickSamples n c ((k : ℝ) / 100.0)).reverse.map (fun a => -a)).dropLast ++
      thickSamples n c ((k : ℝ) / 100.0)).length = 2 * n - 1 := by
    simp [List.length_dropLast]; omega
  constructor
  · have h1 := List.getElem?_reverse
      (l := (chordSamples n c).reverse.dropLast ++ chordSamples n c) (i := i)
      (by rw [hLlen]; exact hi)
    rw [loop_palindrome] at h1
    rw [hLlen] at h1
    rw [show 2 * n - 1 - 1 - i = 2 * n - 2 - i by omega] at h1
    exact h1.symm
  · have h2 := List.getElem?_reverse
      (l := ((thickSamples n c ((k : ℝ) / 100.0)).reverse.map (fun a => -a)).dropLast ++
        thickSamples n c ((k : ℝ) / 100.0)) (i := i)
      (by rw [hMlen]; exact hi)
    rw [loop_antipalindrome _ (Or.inl (thickSamples_head n c _ hn))] at h2
    rw [List.getElem?_map] at h2
    rw [hMlen] at h2
    rw [show 2 * n - 1 - 1 - i = 2 * n - 2 - i by omega] at h2
    exact h2.symm

/-- Witness for C7 at `code = "0012"`, `pointCount = 2`, `chordLength = 1`. -/
theorem C7_loop_symmetric_witness :
    ("0012".length = 4 ∧ (pyIntParse ("0012".drop 2)).isSome = true ∧
        2 ≤ 2 ∧ (0:ℝ) < 1) ∧
      ∃ xs ys, generate_naca_profile "0012" 2 1 = .ok (xs, ys) ∧
        ∀ i, i < 2 * 2 - 1 →
          xs[2 * 2 - 2 - i]? = xs[i]? ∧
          ys[2 * 2 - 2 - i]? = (ys[i]?).map (fun y : ℝ => -y) :=
  ⟨⟨by decide, by decide, by decide, by norm_num⟩,
    C7_loop_symmetric "0012" 2 1 (by decide) (by decide) (by decide) (by norm_num)⟩

/-- The four cosine-spaced chord samples at unit chord: `β = {0, π/3, 2π/3, π}`
gives `x = {0, 1/4, 3/4, 1}`. -/
lemma chordSamples_four : chordSamples 4 1 = [0, 1/4, 3/4, 1] := by
  have e0 : (0:ℝ) + (Real.pi - 0) * ((0:ℕ):ℝ) / (((4:ℕ):ℝ) - 1) = 0 := by
    push_cast; ring
  have e1 : (0:ℝ) + (Real.pi - 0) * ((1:ℕ):ℝ) / (((4:ℕ):ℝ) - 1) = Real.pi / 3 := by
    push_cast; ring
  have e2 : (0:ℝ) + (Real.pi - 0) * ((2:ℕ):ℝ) / (((4:ℕ):ℝ) - 1) =
      Real.pi - Real.pi / 3 := by push_cast; ring
  have e3 : (0:ℝ) + (Real.pi - 0) * ((3:ℕ):ℝ) / (((4:ℕ):ℝ) - 1) = Real.pi := by
    push_cast; ring
  rw [chordSamples, linspace, if_neg (by omega),
    show List.range 4 = [0, 1, 2, 3] from rfl]
  simp only [List.map_cons, List.map_nil]
  rw [e0, e1, e2, e3, Real.cos_zero, Real.cos_pi_div_three, Real.cos_pi_sub,
    Real.cos_pi_div_three, Real.cos_pi]
  norm_num

/-- C6: `generate_naca_profile "0012" 4 1` parses thickness percentage 12
(ratio 0.12), samples the chord at `x = {0, 0.25, 0.75, 1}` by cosine
spacing, and returns a 7-point loop whose first and last points sit at
`x = 1` with opposite-sign `y`, and whose middle point is `(0, 0)`. -/
theorem C6_concrete_scenario_0012 :
    pyIntParse ("0012".drop 2) = some 12 ∧
    ∃ xs ys, generate_naca_profile "0012" 4 1 = .ok (xs, ys) ∧
      xs = [1, 0.75, 0.25, 0, 0.25, 0.75, 1] ∧
      ys.length = 7 ∧
      (∃ yTE : ℝ, ys.head? = some (-yTE) ∧ ys.getLast? = some yTE ∧ 0 < yTE) ∧
      ys[3]? = some 0 := by
  refine ⟨by decide, ?_⟩
  have h := generate_eq_ok "0012" 4 1 12 (by decide) (by decide)
  have hts : thickSamples 4 1 (((12:ℤ):ℝ) / 100.0) =
      [naca_00xx_thickness (0 / 1) (((12:ℤ):ℝ) / 100.0) * 1,
       naca_00xx_thickness (1 / 4 / 1) (((12:ℤ):ℝ) / 100.0) * 1,
       naca_00xx_thickness (3 / 4 / 1) (((12:ℤ):ℝ) / 100.0) * 1,
       naca_00xx_thickness (1 / 1) (((12:ℤ):ℝ) / 100.0) * 1] := by
    rw [thickSamples, chordSamples_four]
    rfl
  refine ⟨_, _, h, ?_, ?_, ?_, ?_⟩
  · rw [chordSamples_four]
    show ([1, 3/4, 1/4, 0, 1/4, 3/4, 1] : List ℝ) =
      [1, 0.75, 0.25, 0, 0.25, 0.75, 1]
    norm_num
  · rw [hts]
    rfl
  · rw [hts]
    refine ⟨naca_00xx_thickness (1 / 1) (((12:ℤ):ℝ) / 100.0) * 1, rfl, rfl, ?_⟩
    have h1 : ((1:ℝ) / 1) = 1 := by norm_num
    rw [h1, naca_thickness_at_one]
    push_cast
    norm_num
  · rw [hts]
    show some (naca_00xx_thickness (0 / 1) (((12:ℤ):ℝ) / 100.0) * 1) = some 0
    norm_num [naca_thickness_at_zero]

lemma digitsVal_concat (l : List Char) (c : Char) :
    digitsVal (l ++ [c]) = 10 * digitsVal l + (c.toNat - '0'.toNat) := by
  simp [digitsVal, List.foldl_append]

lemma char_ofNat_digit_toNat (d : ℕ) (hd : d < 10) :
    (Char.ofNat ('0'.toNat + d)).toNat = '0'.toNat + d := by
  interval_cases d <;> decide

lemma char_ofNat_digit_isDigit (d : ℕ) (hd : d < 10) :
    (Char.ofNat ('0'.toNat + d)).isDigit = true := by
  interval_cases d <;> decide

/-- Parsing the digits printed for `n` recovers `n`. -/
lemma decDigitsAux_val : ∀ fuel n, n ≤ fuel → digitsVal (decDigitsAux fuel n) = n := by
  intro fuel
  induction fuel with
  | zero =>
    intro n h
    interval_cases n
    rfl
  | succ f ih =>
    intro n h
    by_cases hn : n = 0
    · subst hn; rfl
    · have hdiv : n / 10 < n := Nat.div_lt_self (Nat.pos_of_ne_zero hn) (by norm_num)
      show digitsVal (if n = 0 then []
        else decDigitsAux f (n / 10) ++ [Char.ofNat ('0'.toNat + n % 10)]) = n
      rw [if_neg hn, digitsVal_concat, ih (n / 10) (by omega),
        char_ofNat_digit_toNat (n % 10) (Nat.mod_lt _ (by norm_num))]
      have h48 : ('0'.toNat) = 48 := rfl
      rw [h48]
      omega

/-- Every printed character is a decimal digit. -/
lemma decDigitsAux_all_digits : ∀ fuel n, (decDigitsAux fuel n).all Char.isDigit = true := by
  intro fuel
  induction fuel with
  | zero => intro n; rfl
  | succ f ih =>
    intro n
    by_cases hn : n = 0
    · subst hn; rfl
    · show (if n = 0 then []
        else decDigitsAux f (n / 10) ++ [Char.ofNat ('0'.toNat + n % 10)]).all
          Char.isDigit = true
      rw [if_neg hn, List.all_append, ih (n / 10)]
      have hc := char_ofNat_digit_isDigit (n % 10) (Nat.mod_lt _ (by norm_num))
      simpa using hc

lemma decDigitsAux_ne_nil (f n : ℕ) (hn : n ≠ 0) : decDigitsAux (f + 1) n ≠ [] := by
  show (if n = 0 then []
    else decDigitsAux f (n / 10) ++ [Char.ofNat ('0'.toNat + n % 10)]) ≠ []
  rw [if_neg hn]
  simp

/-- Round-trip: reading the count line written for `n` yields `n`. -/
lemma parseCountLine_decRepr (n : ℕ) : parseCountLine (decRepr n) = some n := by
  by_cases hn : n = 0
  · subst hn; decide
  · rw [decRepr, if_neg hn, parseCountLine]
    have htl : (String.mk (decDigitsAux (n + 1) n)).toList = decDigitsAux (n + 1) n := rfl
    rw [htl, if_pos ⟨decDigitsAux_ne_nil n n hn, decDigitsAux_all_digits (n + 1) n⟩,
      decDigitsAux_val (n + 1) n (by omega)]

/-- At most `k` digits are printed for `n < 10^k`. -/
lemma decDigitsAux_length_le : ∀ fuel n k, n < 10 ^ k → (decDigitsAux fuel n).length ≤ k := by
  intro fuel
  induction fuel with
  | zero => intro n k _; exact Nat.zero_le k
  | succ f ih =>
    intro n k hk
    by_cases hn : n = 0
    · subst hn
      show (if (0:ℕ) = 0 then [] else _).length ≤ k
      rw [if_pos rfl]
      exact Nat.zero_le k
    · obtain ⟨k1, rfl⟩ : ∃ k1, k = k1 + 1 := by
        refine ⟨k - 1, ?_⟩
        have : k ≠ 0 := by
          intro h0
          subst h0
          simp at hk
          omega
        omega
      show (if n = 0 then []
        else decDigitsAux f (n / 10) ++ [Char.ofNat ('0'.toNat + n % 10)]).length ≤ k1 + 1
      rw [if_neg hn, List.length_append]
      have hdiv : n / 10 < 10 ^ k1 := by
        rw [Nat.div_lt_iff_lt_mul (by norm_num : (0:ℕ) < 10)]
        calc n < 10 ^ (k1 + 1) := hk
          _ = 10 ^ k1 * 10 := by ring
      have hrec := ih (n / 10) k1 hdiv
      simp only [List.length_cons, List.length_nil]
      omega

lemma decRepr_length_le (n k : ℕ) (hk : n < 10 ^ k) (hk1 : 1 ≤ k) :
    (decRepr n).length ≤ k := by
  by_cases hn : n = 0
  · subst hn
    simpa [decRepr] using hk1
  · rw [decRepr, if_neg hn]
    exact decDigitsAux_length_le (n + 1) n k hk

lemma decRepr_all_digits (n : ℕ) : (decRepr n).toList.all Char.isDigit = true := by
  by_cases hn : n = 0
  · subst hn; decide
  · rw [decRepr, if_neg hn]
    exact decDigitsAux_all_digits (n + 1) n

/-- The fixed-point rendering splits at its decimal point into an integer
part and exactly ten digit characters. -/
lemma fixedOfInt_shape (m : ℤ) : ∃ pre post, fixedOfInt m = pre ++ "." ++ post ∧
    post.length = 10 ∧ post.toList.all Char.isDigit = true := by
  refine ⟨(if m < 0 then "-" else "") ++ decRepr (m.natAbs / 10 ^ 10),
    String.mk (List.replicate (10 - (decRepr (m.natAbs % 10 ^ 10)).length) '0') ++
      decRepr (m.natAbs % 10 ^ 10), ?_, ?_, ?_⟩
  · simp only [fixedOfInt, String.append_assoc]
  · rw [String.length_append]
    have h1 : (String.mk (List.replicate
        (10 - (decRepr (m.natAbs % 10 ^ 10)).length) '0')).length =
        10 - (decRepr (m.natAbs % 10 ^ 10)).length := by
      show (List.replicate _ '0').length = _
      exact List.length_replicate _ _
    have h2 : (decRepr (m.natAbs % 10 ^ 10)).length ≤ 10 :=
      decRepr_length_le _ 10 (Nat.mod_lt _ (by norm_num)) (by norm_num)
    omega
  · have htl : (String.mk (List.replicate
        (10 - (decRepr (m.natAbs % 10 ^ 10)).length) '0') ++
        decRepr (m.natAbs % 10 ^ 10)).toList =
        List.replicate (10 - (decRepr (m.natAbs % 10 ^ 10)).length) '0' ++
          (decRepr (m.natAbs % 10 ^ 10)).toList := by
      show (String.mk _).data ++ _ = _
      rfl
    rw [htl, List.all_append]
    rw [decRepr_all_digits]
    simp [List.all_replicate]

/-- `"%.10f"` output always carries exactly ten digits after the decimal
point. -/
lemma formatFixed10_shape {α : Type} [LinearOrderedField α] [FloorRing α] (x : α) :
    ∃ pre post, formatFixed10 x = pre ++ "." ++ post ∧
      post.length = 10 ∧ post.toList.all Char.isDigit = true := by
  rw [formatFixed10]
  exact fixedOfInt_shape _

/-- C4: for every vertex loop (equal-length coordinate lists), offset and
target path, the written file is: first line the decimal vertex count `N`,
then exactly `N` lines, each holding the corresponding offset-translated
point with `x` and `y` formatted to exactly ten digits after the decimal
point and separated by a tab; reading the file back yields a count equal to
the first line and exactly that many coordinate lines. -/
theorem C4_vertex_file_format (xs ys : List ℚ) (off : ℚ × ℚ)
    (hlen : xs.length = ys.length) :
    (write_vertex_file_lines formatFixed10 xs ys off).head? =
      some (decRepr xs.length) ∧
    (write_vertex_file_lines formatFixed10 xs ys off).length = xs.length + 1 ∧
    (∀ i, i < xs.length → ∃ xi yi, xs[i]? = some xi ∧ ys[i]? = some yi ∧
      (write_vertex_file_lines formatFixed10 xs ys off)[i + 1]? =
        some (formatFixed10 (xi + off.1) ++ "\t" ++ formatFixed10 (yi + off.2))) ∧
    (∀ q : ℚ, ∃ pre post, formatFixed10 q = pre ++ "." ++ post ∧
      post.length = 10 ∧ post.toList.all Char.isDigit = true) ∧
    readVertexFile (write_vertex_file_lines formatFixed10 xs ys off) =
      some (xs.length, (write_vertex_file_lines formatFixed10 xs ys off).tail) ∧
    (write_vertex_file_lines formatFixed10 xs ys off).tail.length = xs.length := by
  refine ⟨?_, ?_, ?_, fun q => formatFixed10_shape q, ?_, ?_⟩
  · simp [write_vertex_file_lines]
  · simp [write_vertex_file_lines, hlen]
  · intro i hi
    have hiy : i < ys.length := by omega
    obtain ⟨xi, hxi⟩ : ∃ a, xs[i]? = some a := ⟨_, List.getElem?_eq_getElem hi⟩
    obtain ⟨yi, hyi⟩ : ∃ a, ys[i]? = some a := ⟨_, List.getElem?_eq_getElem hiy⟩
    refine ⟨xi, yi, hxi, hyi, ?_⟩
    simp only [write_vertex_file_lines, List.getElem?_cons_succ, List.getElem?_map]
    have hz : ((xs.map (fun x => x + off.1)).zip
        (ys.map (fun y => y + off.2)))[i]? = some (xi + off.1, yi + off.2) :=
      List.getElem?_zip_eq_some.mpr
        ⟨by rw [List.getElem?_map, hxi]; rfl, by rw [List.getElem?_map, hyi]; rfl⟩
    rw [hz]
    rfl
  · simp only [write_vertex_file_lines, readVertexFile]
    rw [parseCountLine_decRepr]
    rfl
  · simp [write_vertex_file_lines, hlen]

/-- Witness for C4 at `xs = [1/2]`, `ys = [-1/3]`, `off = (1/4, 0)`. -/
theorem C4_vertex_file_format_witness :
    ([(1:ℚ)/2].length = [(-1:ℚ)/3].length) ∧
      ((write_vertex_file_lines formatFixed10 [(1:ℚ)/2] [(-1:ℚ)/3] (1/4, 0)).head? =
          some (decRepr [(1:ℚ)/2].length) ∧
        (write_vertex_file_lines formatFixed10 [(1:ℚ)/2] [(-1:ℚ)/3] (1/4, 0)).length =
          [(1:ℚ)/2].length + 1 ∧
        (∀ i, i < [(1:ℚ)/2].length → ∃ xi yi, [(1:ℚ)/2][i]? = some xi ∧
            [(-1:ℚ)/3][i]? = some yi ∧
            (write_vertex_file_lines formatFixed10 [(1:ℚ)/2] [(-1:ℚ)/3] (1/4, 0))[i + 1]? =
              some (formatFixed10 (xi + ((1:ℚ)/4, (0:ℚ)).1) ++ "\t" ++
                formatFixed10 (yi + ((1:ℚ)/4, (0:ℚ)).2))) ∧
        (∀ q : ℚ, ∃ pre post, formatFixed10 q = pre ++ "." ++ post ∧
          post.length = 10 ∧ post.toList.all Char.isDigit = true) ∧
        readVertexFile (write_vertex_file_lines formatFixed10 [(1:ℚ)/2] [(-1:ℚ)/3] (1/4, 0)) =
          some ([(1:ℚ)/2].length,
            (write_vertex_file_lines formatFixed10 [(1:ℚ)/2] [(-1:ℚ)/3] (1/4, 0)).tail) ∧
        (write_vertex_file_lines formatFixed10 [(1:ℚ)/2] [(-1:ℚ)/3] (1/4, 0)).tail.length =
          [(1:ℚ)/2].length) :=
  ⟨rfl, C4_vertex_file_format [(1:ℚ)/2] [(-1:ℚ)/3] (1/4, 0) rfl⟩

/-- The vertex file written for a 256-point profile loop: count line `"511"`
followed by 511 coordinate lines, regardless of the thickness ratio. -/
lemma write_loop_head_len (t : ℝ) :
    (write_vertex_file_lines formatFixed10
        ((chordSamples 256 (1.0:ℝ)).reverse.dropLast ++ chordSamples 256 1.0)
        (((thickSamples 256 1.0 t).reverse.map (fun y => -y)).dropLast ++
          thickSamples 256 1.0 t) (0.5, 0.0)).head? = some "511" ∧
    (write_vertex_file_lines formatFixed10
        ((chordSamples 256 (1.0:ℝ)).reverse.dropLast ++ chordSamples 256 1.0)
        (((thickSamples 256 1.0 t).reverse.map (fun y => -y)).dropLast ++
          thickSamples 256 1.0 t) (0.5, 0.0)).length = 512 := by
  have hx : ((chordSamples 256 (1.0:ℝ)).reverse.dropLast ++
      chordSamples 256 1.0).length = 511 := by
    simp [List.length_dropLast]
  have hy : ((((thickSamples 256 (1.0:ℝ) t).reverse.map (fun y => -y)).dropLast ++
      thickSamples 256 1.0 t)).length = 511 := by
    simp [List.length_dropLast]
  constructor
  · simp only [write_vertex_file_lines, List.head?_cons, hx]
    rw [show decRepr 511 = "511" from by decide]
  · simp only [write_vertex_file_lines, List.length_cons, List.length_map,
      List.length_zip, hx, hy]
    norm_num

/-- C5: the batch driver creates exactly 5 vertex files under the 2 label
directories (codes 0006 and 0008 under "anguilliform"; 0012, 0018 and 0024
under "carangiform"), each generated at `pointCount = 256`,
`chordLength = 1.0`, offset `(0.5, 0.0)`, and each containing
`511 = 2·256 − 1` vertices. -/
theorem C5_standard_set :
    ∃ files, generate_all_gupta2022_profiles = .ok files ∧
      files.map (fun f => (f.1, f.2.1)) =
        [("anguilliform", "../generated_meshes/anguilliform/naca0006.vertex"),
         ("anguilliform", "../generated_meshes/anguilliform/naca0008.vertex"),
         ("carangiform", "../generated_meshes/carangiform/naca0012.vertex"),
         ("carangiform", "../generated_meshes/carangiform/naca0018.vertex"),
         ("carangiform", "../generated_meshes/carangiform/naca0024.vertex")] ∧
      files.length = 5 ∧
      ∀ f ∈ files, f.2.2.head? = some "511" ∧ f.2.2.length = 512 := by
  have h06 := generate_eq_ok "0006" 256 1.0 6 (by decide) (by decide)
  have h08 := generate_eq_ok "0008" 256 1.0 8 (by decide) (by decide)
  have h12 := generate_eq_ok "0012" 256 1.0 12 (by decide) (by decide)
  have h18 := generate_eq_ok "0018" 256 1.0 18 (by decide) (by decide)
  have h24 := generate_eq_ok "0024" 256 1.0 24 (by decide) (by decide)
  rw [generate_all_gupta2022_profiles, gupta2022_profiles]
  simp only [List.foldr_cons, List.foldr_nil]
  rw [h06, h08, h12, h18, h24]
  refine ⟨_, rfl, rfl, rfl, ?_⟩
  intro f hf
  simp only [List.mem_cons, List.not_mem_nil, or_false] at hf
  rcases hf with hf | hf | hf | hf | hf <;> subst hf <;>
    exact write_loop_head_len _

end NacaGen
